import Mathlib

/-
Verification of the quantum-register / stabilizer-code simulator.

Shallow embedding of the Rust sources:
  src/src/quantum/state.rs
  src/src/quantum/error_correction.rs
  src/src/quantum/noise.rs

Machine floating-point amplitudes (f64) are embedded as exact rationals;
every property verified here depends only on ring operations and sign
tests, never on rounding.  Definitions whose doc comment starts with
"Modelled from the spec:" correspond to items of this repository that are
declared or called in the sources above but whose defining code is not
present under src/ (private helpers of missing modules); they are
reconstructed from the specification's words.  Everything else is a
direct translation of the source.
-/

set_option maxRecDepth 10000

namespace QuantumSim

/-- Complex number with rational components, standing for `Complex64`
(f64 real and imaginary parts) in the source. -/
structure Cplx where
  re : ℚ
  im : ℚ
deriving DecidableEq

def Cplx.add (a b : Cplx) : Cplx := ⟨a.re + b.re, a.im + b.im⟩

def Cplx.mul (a b : Cplx) : Cplx :=
  ⟨a.re * b.re - a.im * b.im, a.re * b.im + a.im * b.re⟩

def Cplx.neg (a : Cplx) : Cplx := ⟨-a.re, -a.im⟩

/-- Complex conjugate, `Complex64::conj` in the source. -/
def Cplx.conj (a : Cplx) : Cplx := ⟨a.re, -a.im⟩

instance : Add Cplx := ⟨Cplx.add⟩
instance : Mul Cplx := ⟨Cplx.mul⟩
instance : Neg Cplx := ⟨Cplx.neg⟩

def czero : Cplx := ⟨0, 0⟩

def cone : Cplx := ⟨1, 0⟩

/-- The imaginary unit. -/
def cI : Cplx := ⟨0, 1⟩

/-- Pauli operator tag (src/src/quantum/state.rs, `enum PauliOperator`). -/
inductive PauliOperator where
  | X
  | Y
  | Z
deriving DecidableEq

/-- Gate type (src/src/quantum/state.rs, `enum QuantumGate`).  The source's
`Phase(f64)` carries an angle; since the induced factor `exp(i*phi)` is
transcendental, the embedded constructor carries the unit phase factor
itself as a `Cplx`.  No verified claim evaluates the phase action. -/
inductive QuantumGate where
  | Hadamard
  | PauliX
  | PauliY
  | PauliZ
  | Phase (factor : Cplx)
  | CNOT (control : ℕ)
deriving DecidableEq

/-- Measurement basis (src/src/quantum/state.rs, `enum MeasurementBasis`
as used in `measure`'s dispatch; the enum declaration itself is in a
module absent from src/). -/
inductive MeasurementBasis where
  | Computational
  | Bell
  | Magic
deriving DecidableEq

/-- Modelled from the spec: the `Measurement` record appended to the
state's history; its declaring module is absent from src/.  The spec
describes it as the logged outcome of a measurement in a basis. -/
structure Measurement where
  basis : MeasurementBasis
  outcome : ℕ
deriving DecidableEq

/-- Modelled from the spec: the failure enum (named `QuantumError` in the
source, declared in a module absent from src/; renamed here because the
source also uses `QuantumError` for the error-pattern type).  Variants
follow the spec's error taxonomy (section 7). -/
inductive QuantumFault where
  | InvalidQubitIndex
  | DimensionMismatch
  | UnknownSyndrome
deriving DecidableEq

instance {e a : Type} [DecidableEq e] [DecidableEq a] : DecidableEq (Except e a) :=
  fun x y =>
    match x, y with
    | Except.ok u, Except.ok v =>
        if h : u = v then isTrue (h ▸ rfl)
        else isFalse (fun hc => h (by injection hc))
    | Except.ok _, Except.error _ => isFalse (fun hc => Except.noConfusion hc)
    | Except.error _, Except.ok _ => isFalse (fun hc => Except.noConfusion hc)
    | Except.error u, Except.error v =>
        if h : u = v then isTrue (h ▸ rfl)
        else isFalse (fun hc => h (by injection hc))

/-- Stabilizer: ordered list of (qubit index, Pauli) pairs
(src/src/quantum/state.rs, `struct Stabilizer`). -/
structure Stabilizer where
  operators : List (ℕ × PauliOperator)
deriving DecidableEq

/-- Tag for logical operators.  Declared in a module absent from src/;
modelled from the spec: "same shape as Stabilizer, tagged X or Z". -/
inductive OperatorType where
  | X
  | Z
deriving DecidableEq

/-- Modelled from the spec: a logical operator of the code, a stabilizer-
shaped pair list tagged X or Z; its declaring module is absent from src/. -/
structure LogicalOperator where
  operators : List (ℕ × PauliOperator)
  op_type : OperatorType
deriving DecidableEq

/-- Error syndrome: fixed-size bit sequence, one bit per stabilizer
(src/src/quantum/state.rs, `struct ErrorSyndrome`). -/
structure ErrorSyndrome where
  bits : List Bool
  size : ℕ
deriving DecidableEq

/-- `ErrorSyndrome::new` (src/src/quantum/state.rs lines 113-118):
all bits start false. -/
def ErrorSyndrome.new (size : ℕ) : ErrorSyndrome :=
  { bits := List.replicate size false, size := size }

/-- `ErrorSyndrome::set_bit` (src/src/quantum/state.rs lines 120-124):
out-of-range indices are silently ignored. -/
def ErrorSyndrome.set_bit (s : ErrorSyndrome) (index : ℕ) (value : Bool) :
    ErrorSyndrome :=
  if index < s.size then { s with bits := s.bits.set index value } else s

/-- `ErrorSyndrome::get_bit` (src/src/quantum/state.rs lines 126-132). -/
def ErrorSyndrome.get_bit (s : ErrorSyndrome) (index : ℕ) : Option Bool :=
  if index < s.size then some (s.bits.getD index false) else none

/-- Modelled from the spec: `ErrorSyndrome::to_bitvec`, called by
`compute_recovery_operation` but not defined under src/; per the spec the
syndrome is serialized as its ordered bits. -/
def ErrorSyndrome.to_bitvec (s : ErrorSyndrome) : List Bool := s.bits

/-- Modelled from the spec: the error-pattern type (named `QuantumError`
in src/src/quantum/error_correction.rs usage; its declaring module is
absent from src/).  Per the spec it is "a mapping from qubit index to the
Pauli operator applied there (qubits not present are implicitly
identity)"; `new` takes a size, `add_pauli` adds an entry, `get_pauli`
looks one up. -/
structure QuantumError where
  size : ℕ
  paulis : List (ℕ × PauliOperator)
deriving DecidableEq

/-- Modelled from the spec: `QuantumError::new(size)`, the empty pattern. -/
def QuantumError.new (size : ℕ) : QuantumError := ⟨size, []⟩

/-- Modelled from the spec: `QuantumError::add_pauli(pos, pauli)`. -/
def QuantumError.add_pauli (e : QuantumError) (pos : ℕ) (pauli : PauliOperator) :
    QuantumError :=
  { e with paulis := e.paulis ++ [(pos, pauli)] }

/-- Modelled from the spec: `QuantumError::get_pauli(qubit)`, the mapping
lookup (first entry for the qubit, none meaning identity). -/
def QuantumError.get_pauli (e : QuantumError) (qubit : ℕ) : Option PauliOperator :=
  (e.paulis.find? (fun qp => qp.1 == qubit)).map (fun qp => qp.2)

/-- Modelled from the spec: a recovery operation is "a Quantum Error
whose application exactly undoes a given syndrome's most-likely
underlying error"; its declaring module is absent from src/. -/
abbrev RecoveryOperation := QuantumError

/-- Modelled from the spec: `RecoveryOperation::from_error`, wrapping the
enumerated error pattern as the recovery operation recorded for its
syndrome. -/
def RecoveryOperation.from_error (e : QuantumError) : RecoveryOperation := e

/-- The stabilizer code (src/src/quantum/error_correction.rs, `struct
ErrorCorrectionCode`).  The `HashMap<BitVec, RecoveryOperation>` is
embedded as an association list with unique keys; the construction only
ever inserts a key that is absent, so lookup agrees with the hash map. -/
structure ErrorCorrectionCode where
  distance : ℕ
  stabilizers : List Stabilizer
  logical_operators : List LogicalOperator
  recovery_lookup : List (List Bool × RecoveryOperation)
deriving DecidableEq

/-- Association-list lookup standing for `HashMap::get` /
`HashMap::contains_key` on the recovery table. -/
def findRecovery : List (List Bool × RecoveryOperation) → List Bool →
    Option RecoveryOperation
  | [], _ => none
  | (k, v) :: rest, key => if k = key then some v else findRecovery rest key

/-- `ErrorCorrectionCode::commutes` (src/src/quantum/error_correction.rs
lines 137-147): false exactly on the six ordered pairs of distinct
Paulis, true otherwise. -/
def commutes (a b : PauliOperator) : Bool :=
  match a, b with
  | .X, .Y => false
  | .X, .Z => false
  | .Y, .X => false
  | .Y, .Z => false
  | .Z, .X => false
  | .Z, .Y => false
  | _, _ => true

/-- `ErrorCorrectionCode::compute_syndrome_for_error`
(src/src/quantum/error_correction.rs lines 121-135): one bit per
stabilizer; the bit accumulates `parity ^= commutes(pauli, error_pauli)`
over the stabilizer's entries, skipping qubits where the error has no
entry. -/
def ErrorCorrectionCode.compute_syndrome_for_error (c : ErrorCorrectionCode)
    (error : QuantumError) : List Bool :=
  c.stabilizers.map (fun stabilizer =>
    stabilizer.operators.foldl (fun parity qp =>
      match error.get_pauli qp.1 with
      | some error_pauli => xor parity (commutes qp.2 error_pauli)
      | none => parity) false)

/-- Itertools `combinations(t)` over a list: all strictly-increasing-
position selections of `t` elements, in lexicographic order. -/
def combinations : ℕ → List ℕ → List (List ℕ)
  | 0, _ => [[]]
  | _ + 1, [] => []
  | t + 1, x :: xs =>
      (combinations t xs).map (fun c => x :: c) ++ combinations (t + 1) xs

/-- Itertools `combinations_with_replacement(t)` over a list: all
nondecreasing `t`-tuples, in lexicographic order.  Phrased by structural
recursion on `t` over the list's suffixes, which unfolds the usual
recurrence `cwr (t+1) (x :: xs) = map (x :: .) (cwr t (x :: xs)) ++
cwr (t+1) xs` while keeping the enumeration order. -/
def combinationsWithReplacement : ℕ → List ℕ → List (List ℕ)
  | 0, _ => [[]]
  | t + 1, l =>
      l.tails.flatMap (fun suffix =>
        match suffix with
        | [] => []
        | x :: _ =>
            (combinationsWithReplacement t suffix).map (fun c => x :: c))

/-- Numeric Pauli tag decoding used by the enumeration
(src/src/quantum/error_correction.rs lines 107-111). -/
def pauliOfNat (n : ℕ) : PauliOperator :=
  match n with
  | 0 => PauliOperator.X
  | 1 => PauliOperator.Y
  | _ => PauliOperator.Z

/-- `ErrorCorrectionCode::enumerate_likely_errors`
(src/src/quantum/error_correction.rs lines 98-119): for each weight `t`
from 0 to `distance - 1`, positions are drawn as `t`-combinations of
`0..stabilizers.len()` and Pauli tags as `t`-combinations-with-
replacement of `0..3`, zipped positionally. -/
def ErrorCorrectionCode.enumerate_likely_errors (c : ErrorCorrectionCode) :
    List QuantumError :=
  let n := c.distance - 1
  (List.range (n + 1)).flatMap (fun t =>
    (combinations t (List.range c.stabilizers.length)).flatMap (fun positions =>
      (combinationsWithReplacement t (List.range 3)).map (fun error_types =>
        (positions.zip error_types).foldl
          (fun e pq => e.add_pauli pq.1 (pauliOfNat pq.2))
          (QuantumError.new c.stabilizers.length))))

/-- `ErrorCorrectionCode::precompute_recovery_operations`
(src/src/quantum/error_correction.rs lines 86-96): walk the enumerated
errors in order and record the first error reaching each syndrome. -/
def ErrorCorrectionCode.precompute_recovery_operations
    (c : ErrorCorrectionCode) : ErrorCorrectionCode :=
  { c with recovery_lookup :=
      (c.enumerate_likely_errors.foldl (fun lookup error =>
        let syndrome := c.compute_syndrome_for_error error
        if (findRecovery lookup syndrome).isSome then lookup
        else lookup ++ [(syndrome, RecoveryOperation.from_error error)])
        c.recovery_lookup) }

/-- `ErrorCorrectionCode::new_steane_code`
(src/src/quantum/error_correction.rs lines 14-72): the fixed 4
stabilizers and 2 logical operators of the 7-qubit distance-3 code,
followed by the recovery precomputation. -/
def ErrorCorrectionCode.new_steane_code : ErrorCorrectionCode :=
  ErrorCorrectionCode.precompute_recovery_operations
    { distance := 3
      stabilizers :=
        [ ⟨[(0, .X), (2, .X), (4, .X), (6, .X)]⟩
        , ⟨[(1, .X), (3, .X), (5, .X), (6, .X)]⟩
        , ⟨[(0, .Z), (2, .Z), (4, .Z), (6, .Z)]⟩
        , ⟨[(1, .Z), (3, .Z), (5, .Z), (6, .Z)]⟩ ]
      logical_operators :=
        [ ⟨[(0, .X), (1, .X), (2, .X), (3, .X)], .X⟩
        , ⟨[(0, .Z), (1, .Z), (2, .Z), (3, .Z)], .Z⟩ ]
      recovery_lookup := [] }

/-- `ErrorCorrectionCode::compute_recovery_operation`
(src/src/quantum/error_correction.rs lines 78-84): dictionary lookup on
the syndrome's bits; absent keys yield `UnknownSyndrome`. -/
def ErrorCorrectionCode.compute_recovery_operation (c : ErrorCorrectionCode)
    (syndrome : ErrorSyndrome) : Except QuantumFault RecoveryOperation :=
  match findRecovery c.recovery_lookup syndrome.to_bitvec with
  | some r => Except.ok r
  | none => Except.error QuantumFault.UnknownSyndrome

/-- Modelled from the spec: the product of two distinct non-identity
Pauli operators is the third one, up to a global phase that error
patterns do not track. -/
def thirdPauli (a b : PauliOperator) : PauliOperator :=
  match a, b with
  | .X, .Y => .Z
  | .Y, .X => .Z
  | .X, .Z => .Y
  | .Z, .X => .Y
  | .Y, .Z => .X
  | .Z, .Y => .X
  | p, _ => p

/-- Modelled from the spec: qubit-wise Pauli composition, `none` standing
for the identity; equal Paulis cancel, distinct ones compose to the
third. -/
def composePauli : Option PauliOperator → Option PauliOperator →
    Option PauliOperator
  | none, b => b
  | some a, none => some a
  | some a, some b => if a = b then none else some (thirdPauli a b)

/-- Modelled from the spec: the composite error pattern "error followed
by r" over qubits `0..n`, written as the spec's round-trip law applies
the recovery after the original error. -/
def QuantumError.compose (e r : QuantumError) (n : ℕ) : QuantumError :=
  { size := n
    paulis := (List.range n).filterMap (fun q =>
      (composePauli (e.get_pauli q) (r.get_pauli q)).map (fun p => (q, p))) }

/-- The quantum register (src/src/quantum/state.rs, `struct
QuantumState`).  The source's `basis_states` and `entanglement_map`
fields have types declared in modules absent from src/ and are read by
none of the operations embedded here, so they are omitted. -/
structure QuantumState where
  amplitudes : List Cplx
  num_qubits : ℕ
  measurement_history : List Measurement
  error_syndrome : Option ErrorSyndrome
deriving DecidableEq

/-- `QuantumState::new` (src/src/quantum/state.rs lines 17-29): the
all-zero basis state, `amplitudes[0] = 1`. -/
def QuantumState.new (num_qubits : ℕ) : QuantumState :=
  { amplitudes := (List.replicate (2 ^ num_qubits) czero).set 0 cone
    num_qubits := num_qubits
    measurement_history := []
    error_syndrome := none }

/-- Modelled from the spec: the Pauli-X body `apply_pauli_x` is not under
src/; per the spec a single-qubit gate on qubit `k` pairs up amplitude
indices differing only in bit `k`, and X swaps the pair. -/
def pauliXAmps (k : ℕ) (amps : List Cplx) : List Cplx :=
  (List.range amps.length).map (fun i => amps.getD (i ^^^ 2 ^ k) czero)

/-- Modelled from the spec: the Pauli-Y body `apply_pauli_y` is not under
src/; Y maps the pair (a0, a1) to (-i*a1, i*a0). -/
def pauliYAmps (k : ℕ) (amps : List Cplx) : List Cplx :=
  (List.range amps.length).map (fun i =>
    if i.testBit k then cI * amps.getD (i ^^^ 2 ^ k) czero
    else cI.neg * amps.getD (i ^^^ 2 ^ k) czero)

/-- Modelled from the spec: the Pauli-Z body `apply_pauli_z` is not under
src/; Z negates the amplitude where bit `k` is set. -/
def pauliZAmps (k : ℕ) (amps : List Cplx) : List Cplx :=
  (List.range amps.length).map (fun i =>
    if i.testBit k then (amps.getD i czero).neg else amps.getD i czero)

/-- Modelled from the spec: the Hadamard body `apply_hadamard` is not
under src/; the pair map (a0, a1) to (a0 + a1, a0 - a1) is embedded
without the 1/sqrt 2 scalar, which is irrational and outside the exact
rational amplitude model.  No verified claim evaluates this action. -/
def hadamardAmps (k : ℕ) (amps : List Cplx) : List Cplx :=
  (List.range amps.length).map (fun i =>
    if i.testBit k then Cplx.add (amps.getD (i ^^^ 2 ^ k) czero)
      (amps.getD i czero).neg
    else Cplx.add (amps.getD i czero) (amps.getD (i ^^^ 2 ^ k) czero))

/-- Modelled from the spec: the phase-rotation body `apply_phase` is not
under src/; the amplitude with bit `k` set is multiplied by the unit
phase factor. -/
def phaseAmps (factor : Cplx) (k : ℕ) (amps : List Cplx) : List Cplx :=
  (List.range amps.length).map (fun i =>
    if i.testBit k then factor * amps.getD i czero else amps.getD i czero)

/-- Modelled from the spec: the CNOT body `apply_cnot` is not under src/;
amplitude pairs in the target bit are swapped where the control bit is
set. -/
def cnotAmps (control target : ℕ) (amps : List Cplx) : List Cplx :=
  (List.range amps.length).map (fun i =>
    if i.testBit control then amps.getD (i ^^^ 2 ^ target) czero
    else amps.getD i czero)

/-- `QuantumState::apply_gate` (src/src/quantum/state.rs lines 31-44):
rejects `target >= num_qubits` with `InvalidQubitIndex` before
dispatching on the gate.  The per-gate bodies, including `apply_cnot`'s
check of the control index, are modelled from the spec ("fails with
InvalidQubitIndex if any index >= num_qubits") since they are not under
src/.  The error case returns the state unchanged, mirroring the early
return before any mutation of `&mut self`. -/
def QuantumState.apply_gate (st : QuantumState) (gate : QuantumGate)
    (target : ℕ) : QuantumState × Option QuantumFault :=
  if st.num_qubits ≤ target then (st, some QuantumFault.InvalidQubitIndex)
  else
    match gate with
    | .Hadamard => ({ st with amplitudes := hadamardAmps target st.amplitudes }, none)
    | .PauliX => ({ st with amplitudes := pauliXAmps target st.amplitudes }, none)
    | .PauliY => ({ st with amplitudes := pauliYAmps target st.amplitudes }, none)
    | .PauliZ => ({ st with amplitudes := pauliZAmps target st.amplitudes }, none)
    | .Phase factor =>
        ({ st with amplitudes := phaseAmps factor target st.amplitudes }, none)
    | .CNOT control =>
        if st.num_qubits ≤ control then (st, some QuantumFault.InvalidQubitIndex)
        else ({ st with amplitudes := cnotAmps control target st.amplitudes }, none)

/-- `QuantumState::compute_overlap` (src/src/quantum/state.rs lines
92-103): dimension check, then the inner product summing
`conj(a1) * a2` over zipped amplitudes. -/
def QuantumState.compute_overlap (st other : QuantumState) :
    Except QuantumFault Cplx :=
  if st.num_qubits ≠ other.num_qubits then
    Except.error QuantumFault.DimensionMismatch
  else
    Except.ok ((st.amplitudes.zip other.amplitudes).foldl
      (fun acc ab => acc + ab.1.conj * ab.2) czero)

/-- Gate selection for a Pauli tag, as in the dispatch of
`measure_stabilizer` (src/src/quantum/state.rs lines 81-85). -/
def pauliToGate : PauliOperator → QuantumGate
  | .X => QuantumGate.PauliX
  | .Y => QuantumGate.PauliY
  | .Z => QuantumGate.PauliZ

/-- The gate loop of `measure_stabilizer` applied to the cloned state,
with the `?` early return on a gate fault. -/
def applyPaulis (st : QuantumState) (ops : List (ℕ × PauliOperator)) :
    QuantumState × Option QuantumFault :=
  ops.foldl (fun acc qp =>
    match acc with
    | (s, some f) => (s, some f)
    | (s, none) => s.apply_gate (pauliToGate qp.2) qp.1) (st, none)

/-- `QuantumState::measure_stabilizer` (src/src/quantum/state.rs lines
78-90): clone the state, apply every Pauli of the stabilizer to the
clone, take the overlap of the clone against the original, and return
`overlap.re > 0.0`. -/
def QuantumState.measure_stabilizer (st : QuantumState)
    (stabilizer : Stabilizer) : Except QuantumFault Bool :=
  match applyPaulis st stabilizer.operators with
  | (_, some f) => Except.error f
  | (state, none) =>
      match state.compute_overlap st with
      | Except.error f => Except.error f
      | Except.ok overlap => Except.ok (decide (0 < overlap.re))

/-- Modelled from the spec: the same probe pipeline with the spec's
stated interpretation of the overlap, "a non-negative real part as even
parity (false) and negative as odd parity (true)"; kept beside the
source's version to compare the two interpretations. -/
def QuantumState.measure_stabilizer_specParity (st : QuantumState)
    (stabilizer : Stabilizer) : Except QuantumFault Bool :=
  match applyPaulis st stabilizer.operators with
  | (_, some f) => Except.error f
  | (state, none) =>
      match state.compute_overlap st with
      | Except.error f => Except.error f
      | Except.ok overlap => Except.ok (decide (overlap.re < 0))

/-- Ambient random source.  The source calls `rand::thread_rng()` inside
each randomized operation; the thread-local generator is embedded as an
explicit stream of uniform draws together with the position of the next
draw, threaded through the operations exactly as the thread-local state
is.  The source's `Uniform::new(0.0, 1.0)` samples the half-open
interval [0, 1); theorems that instantiate a concrete stream use draws
inside that interval and state so explicitly. -/
structure Rng where
  stream : ℕ → ℚ
  pos : ℕ

/-- One uniform draw, advancing the ambient position. -/
def Rng.sample (r : Rng) : ℚ × Rng :=
  (r.stream r.pos, { r with pos := r.pos + 1 })

/-- Noise model parameters (src/src/quantum/noise.rs, `struct
NoiseModel`). -/
structure NoiseModel where
  decoherence_rate : ℚ
  depolarizing_probability : ℚ
  thermal_noise_strength : ℚ
  correlation_length : ℚ
  spatial_correlations : List ((ℕ × ℕ) × ℚ)

/-- Loop body of `apply_decoherence` (src/src/quantum/noise.rs lines
41-45): one uniform draw per qubit; a Z gate is applied when the draw
is below `decoherence_rate`; once the `?` operator has aborted with a
fault the remaining iterations change nothing. -/
def decoherenceStep (m : NoiseModel)
    (acc : (QuantumState × Option QuantumFault) × Rng) (i : ℕ) :
    (QuantumState × Option QuantumFault) × Rng :=
  match acc with
  | ((s, some f), r) => ((s, some f), r)
  | ((s, none), r) =>
      let u := r.sample
      if u.1 < m.decoherence_rate then (s.apply_gate QuantumGate.PauliZ i, u.2)
      else ((s, none), u.2)

/-- `NoiseModel::apply_decoherence` (src/src/quantum/noise.rs lines
37-48): create the thread-local generator (the ambient `Rng`), then run
the per-qubit loop over `0..num_qubits`. -/
def NoiseModel.apply_decoherence (m : NoiseModel) (st : QuantumState)
    (amb : Rng) : (QuantumState × Option QuantumFault) × Rng :=
  (List.range st.num_qubits).foldl (decoherenceStep m) ((st, none), amb)

/-- Rational constant 1/2, written as a raw numerator/denominator pair
so that comparisons on it reduce inside the kernel. -/
def ratHalf : ℚ := ⟨1, 2, by decide, by decide⟩

/-- Rational constant 1/4, a uniform draw inside [0, 1). -/
def ratQuarter : ℚ := ⟨1, 4, by decide, by decide⟩

/-- Rational constant 3/4, a uniform draw inside [0, 1). -/
def ratThreeQuarters : ℚ := ⟨3, 4, by decide, by decide⟩

/-- Modelled from the spec: the syndrome-bit formula exactly as the spec
words it for `compute_syndrome_for_error` — XOR over all of the
stabilizer's entries of the commutation-test result against the error's
Pauli at that qubit, "identity wherever the error has no entry", the
test counting the identity as commuting with everything.  Kept beside
the source's version to compare the two formulas. -/
def ErrorCorrectionCode.compute_syndrome_specIdentity (c : ErrorCorrectionCode)
    (error : QuantumError) : List Bool :=
  c.stabilizers.map (fun stabilizer =>
    stabilizer.operators.foldl (fun parity qp =>
      xor parity (match error.get_pauli qp.1 with
        | some error_pauli => commutes qp.2 error_pauli
        | none => true)) false)

/-- Syndromes reachable by constructing an `ErrorSyndrome` of a given
size and then performing any sequence of `set_bit` updates. -/
def buildSyndrome (n : ℕ) (updates : List (ℕ × Bool)) : ErrorSyndrome :=
  updates.foldl (fun s u => s.set_bit u.1 u.2) (ErrorSyndrome.new n)

section Lemmas

/-- A successful recovery lookup returns a stored pair. -/
theorem findRecovery_mem {m : List (List Bool × RecoveryOperation)}
    {k : List Bool} {r : RecoveryOperation} (h : findRecovery m k = some r) :
    (k, r) ∈ m := by
  induction m with
  | nil => simp [findRecovery] at h
  | cons p rest ih =>
      rw [findRecovery] at h
      by_cases hk : p.1 = k
      · rw [if_pos hk] at h
        cases h
        rw [← hk]
        exact List.mem_cons_self _ _
      · rw [if_neg hk] at h
        exact List.mem_cons_of_mem _ (ih h)

/-- With unique keys, every stored pair is found by the lookup. -/
theorem findRecovery_of_mem {m : List (List Bool × RecoveryOperation)}
    {k : List Bool} {r : RecoveryOperation}
    (hnd : (m.map Prod.fst).Nodup) (h : (k, r) ∈ m) :
    findRecovery m k = some r := by
  induction m with
  | nil => simp at h
  | cons p rest ih =>
      rw [List.map_cons, List.nodup_cons] at hnd
      rcases List.mem_cons.mp h with h | h
      · subst h
        rw [findRecovery, if_pos rfl]
      · have hk : p.1 ≠ k := by
          intro he
          exact hnd.1 (he ▸ List.mem_map.mpr ⟨(k, r), h, rfl⟩)
        rw [findRecovery, if_neg hk]
        exact ih hnd.2 h

/-- The lookup misses exactly when the key is absent. -/
theorem findRecovery_none_iff {m : List (List Bool × RecoveryOperation)}
    {k : List Bool} :
    findRecovery m k = none ↔ k ∉ m.map Prod.fst := by
  induction m with
  | nil => simp [findRecovery]
  | cons p rest ih =>
      rw [findRecovery]
      by_cases hk : p.1 = k
      · rw [if_pos hk]
        simp [hk]
      · rw [if_neg hk, ih]
        simp only [List.map_cons, List.mem_cons]
        constructor
        · intro hnot hor
          rcases hor with h1 | h2
          · exact hk h1.symm
          · exact hnot h2
        · intro hnot hmem
          exact hnot (Or.inr hmem)

/-- Unfolding lemma for complex addition. -/
theorem Cplx.add_def (a b : Cplx) : a + b = ⟨a.re + b.re, a.im + b.im⟩ := rfl

/-- Unfolding lemma for complex multiplication. -/
theorem Cplx.mul_def (a b : Cplx) :
    a * b = ⟨a.re * b.re - a.im * b.im, a.re * b.im + a.im * b.re⟩ := rfl

/-- A `set_bit` never changes the declared size. -/
theorem ErrorSyndrome.set_bit_size (s : ErrorSyndrome) (i : ℕ) (v : Bool) :
    (s.set_bit i v).size = s.size := by
  unfold ErrorSyndrome.set_bit
  split <;> rfl

/-- A `set_bit` never changes the stored bit-vector length. -/
theorem ErrorSyndrome.set_bit_length (s : ErrorSyndrome) (i : ℕ) (v : Bool) :
    (s.set_bit i v).bits.length = s.bits.length := by
  unfold ErrorSyndrome.set_bit
  split <;> simp

/-- Sizes and bit-vector lengths are preserved by any update sequence. -/
theorem buildSyndrome_invariant (n : ℕ) (us : List (ℕ × Bool)) :
    (buildSyndrome n us).size = n ∧ (buildSyndrome n us).bits.length = n := by
  unfold buildSyndrome
  induction us using List.reverseRecOn with
  | nil => simp [ErrorSyndrome.new]
  | append_singleton us u ih =>
      rw [List.foldl_append, List.foldl_cons, List.foldl_nil]
      exact ⟨(ErrorSyndrome.set_bit_size _ _ _).trans ih.1,
        (ErrorSyndrome.set_bit_length _ _ _).trans ih.2⟩

end Lemmas

/-- Claim C1: the spec's round-trip law — every enumerated error's
syndrome decodes to a recovery whose composition with the error has the
all-zero syndrome — fails on the code.  The enumerated weight-2 error
(Y at qubit 0, Z at qubit 2) has syndrome 0010, which decodes to the
recovery (Z at qubit 0); composing the error with that recovery leaves
(X at qubit 0, Z at qubit 2), whose syndrome is 1010, not all-zero.  The
evaluation below exhibits the failing input. -/
theorem steane_roundtrip_violation :
    (⟨4, [(0, PauliOperator.Y), (2, PauliOperator.Z)]⟩ : QuantumError) ∈
      ErrorCorrectionCode.new_steane_code.enumerate_likely_errors ∧
    ErrorCorrectionCode.new_steane_code.compute_syndrome_for_error
      ⟨4, [(0, PauliOperator.Y), (2, PauliOperator.Z)]⟩ =
      [false, false, true, false] ∧
    ErrorCorrectionCode.new_steane_code.compute_recovery_operation
      ⟨[false, false, true, false], 4⟩ =
      Except.ok (RecoveryOperation.from_error ⟨4, [(0, PauliOperator.Z)]⟩) ∧
    ErrorCorrectionCode.new_steane_code.compute_syndrome_for_error
      ((⟨4, [(0, PauliOperator.Y), (2, PauliOperator.Z)]⟩ : QuantumError).compose
        ⟨4, [(0, PauliOperator.Z)]⟩ 7) = [true, false, true, false] ∧
    [true, false, true, false] ≠ List.replicate 4 false := by
  decide

/-- Claim C2: the invariant that every syndrome reachable by an error
of weight at most `distance - 1` is a key of the recovery mapping fails
on the code: the weight-2 error (X at qubit 2, Z at qubit 6) over the
code's 7 qubits has syndrome 1011, which is not a key, so decoding
fails with `UnknownSyndrome`.  (The enumeration only places errors on
positions `0..stabilizers.len() = 4`, so qubits 4-6 are never
reached.) -/
theorem steane_syndrome_table_incomplete :
    (⟨7, [(2, PauliOperator.X), (6, PauliOperator.Z)]⟩ :
      QuantumError).paulis.length = 2 ∧
    ErrorCorrectionCode.new_steane_code.distance - 1 = 2 ∧
    ErrorCorrectionCode.new_steane_code.compute_syndrome_for_error
      ⟨7, [(2, PauliOperator.X), (6, PauliOperator.Z)]⟩ =
      [true, false, true, true] ∧
    findRecovery ErrorCorrectionCode.new_steane_code.recovery_lookup
      [true, false, true, true] = none ∧
    ErrorCorrectionCode.new_steane_code.compute_recovery_operation
      ⟨[true, false, true, true], 4⟩ =
      Except.error QuantumFault.UnknownSyndrome := by
  decide

/-- Claim C3: the precomputation does not enumerate error patterns over
all 7 qubits with every assignment of the 3 Pauli types.  Every
enumerated error leaves qubits 4, 5 and 6 untouched (positions range
over `0..stabilizers.len() = 4`, not the 7 qubits), the assignment
(Y at qubit 0, X at qubit 1) is never produced (types come from
`combinations_with_replacement`, so only nondecreasing X-before-Y-
before-Z sequences appear), and only 49 patterns are enumerated instead
of the 1 + 21 + 189 = 211 the claim describes. -/
theorem steane_enumeration_truncated :
    (ErrorCorrectionCode.new_steane_code.enumerate_likely_errors.all
      (fun e => ((e.get_pauli 4).isNone && (e.get_pauli 5).isNone) &&
        (e.get_pauli 6).isNone)) = true ∧
    (ErrorCorrectionCode.new_steane_code.enumerate_likely_errors.all
      (fun e => !((e.get_pauli 0 == some PauliOperator.Y) &&
        (e.get_pauli 1 == some PauliOperator.X)))) = true ∧
    ErrorCorrectionCode.new_steane_code.enumerate_likely_errors.length = 49 := by
  decide

/-- Claim C5: the syndrome bit is not the XOR of commutation tests "with
identity wherever the error has no entry" — the code skips absent
qubits instead, and the identity counts as commuting, so each skipped
entry flips the claimed formula.  At the weight-1 error (X at qubit 0)
the code computes syndrome 1000 while the claim's formula gives 0010. -/
theorem compute_syndrome_skips_identity :
    ErrorCorrectionCode.new_steane_code.compute_syndrome_for_error
      ⟨4, [(0, PauliOperator.X)]⟩ = [true, false, false, false] ∧
    ErrorCorrectionCode.new_steane_code.compute_syndrome_specIdentity
      ⟨4, [(0, PauliOperator.X)]⟩ = [false, false, true, false] ∧
    ErrorCorrectionCode.new_steane_code.compute_syndrome_for_error
      ⟨4, [(0, PauliOperator.X)]⟩ ≠
    ErrorCorrectionCode.new_steane_code.compute_syndrome_specIdentity
      ⟨4, [(0, PauliOperator.X)]⟩ := by
  decide

/-- Claim C6: decoding is a pure dictionary lookup — with the hash-map
key-uniqueness invariant, a result is returned exactly for stored
syndrome keys, the error is `UnknownSyndrome` exactly when the key is
absent, and no other failure or default is ever produced. -/
theorem compute_recovery_operation_is_pure_lookup (c : ErrorCorrectionCode)
    (s : ErrorSyndrome) (hnd : (c.recovery_lookup.map Prod.fst).Nodup) :
    (∀ r, c.compute_recovery_operation s = Except.ok r ↔
      (s.to_bitvec, r) ∈ c.recovery_lookup) ∧
    (c.compute_recovery_operation s = Except.error QuantumFault.UnknownSyndrome ↔
      s.to_bitvec ∉ c.recovery_lookup.map Prod.fst) ∧
    (∀ f, c.compute_recovery_operation s = Except.error f →
      f = QuantumFault.UnknownSyndrome) := by
  unfold ErrorCorrectionCode.compute_recovery_operation
  cases h : findRecovery c.recovery_lookup s.to_bitvec with
  | none =>
      refine ⟨fun r => ⟨fun hc => ?_, fun hm => ?_⟩,
        ⟨fun _ => findRecovery_none_iff.mp h, fun _ => rfl⟩,
        fun f hf => ?_⟩
      · exact Except.noConfusion hc
      · have hs := findRecovery_of_mem hnd hm
        rw [h] at hs
        exact Option.noConfusion hs
      · cases hf
        rfl
  | some r0 =>
      refine ⟨fun r => ⟨fun hc => ?_, fun hm => ?_⟩,
        ⟨fun hc => Except.noConfusion hc, fun habs => ?_⟩,
        fun f hf => Except.noConfusion hf⟩
      · cases hc
        exact findRecovery_mem h
      · have hs := findRecovery_of_mem hnd hm
        rw [h] at hs
        cases hs
        rfl
      · exact absurd (List.mem_map.mpr ⟨(s.to_bitvec, r0), findRecovery_mem h, rfl⟩)
          habs

/-- Witness for claim C6's theorem at the Steane code and the concrete
absent syndrome 1011. -/
theorem compute_recovery_operation_is_pure_lookup_witness :
    (ErrorCorrectionCode.new_steane_code.recovery_lookup.map Prod.fst).Nodup ∧
    (ErrorCorrectionCode.new_steane_code.compute_recovery_operation
        ⟨[true, false, true, true], 4⟩ =
        Except.error QuantumFault.UnknownSyndrome ↔
      [true, false, true, true] ∉
        ErrorCorrectionCode.new_steane_code.recovery_lookup.map Prod.fst) :=
  ⟨by decide,
    (compute_recovery_operation_is_pure_lookup ErrorCorrectionCode.new_steane_code
      ⟨[true, false, true, true], 4⟩ (by decide)).2.1⟩

/-- Claim C7: after construction of the Steane code, decoding the
all-zero syndrome succeeds and returns the identity recovery operation,
the one derived from the empty weight-zero error pattern. -/
theorem decode_zero_syndrome_identity :
    ErrorCorrectionCode.new_steane_code.compute_recovery_operation
      (ErrorSyndrome.new 4) =
      Except.ok (RecoveryOperation.from_error (QuantumError.new 4)) ∧
    (ErrorSyndrome.new 4).to_bitvec = [false, false, false, false] ∧
    (QuantumError.new 4).paulis = [] := by
  decide

/-- Claim C8: `apply_gate` rejects any involved qubit index that is at
least `num_qubits` — the target for every gate, and additionally the
control for CNOT — with `InvalidQubitIndex`, returning the state
unchanged. -/
theorem apply_gate_invalid_qubit_index (st : QuantumState) (gate : QuantumGate)
    (target : ℕ)
    (h : st.num_qubits ≤ target ∨
      ∃ control, gate = QuantumGate.CNOT control ∧ st.num_qubits ≤ control) :
    st.apply_gate gate target = (st, some QuantumFault.InvalidQubitIndex) := by
  unfold QuantumState.apply_gate
  rcases h with h | ⟨control, rfl, hc⟩
  · rw [if_pos h]
  · by_cases ht : st.num_qubits ≤ target
    · rw [if_pos ht]
    · rw [if_neg ht]
      exact if_pos hc

/-- Witness for claim C8's theorem: a CNOT on a 1-qubit state whose
control index 3 is out of range. -/
theorem apply_gate_invalid_qubit_index_witness :
    (QuantumState.new 1).apply_gate (QuantumGate.CNOT 3) 0 =
      (QuantumState.new 1, some QuantumFault.InvalidQubitIndex) :=
  apply_gate_invalid_qubit_index (QuantumState.new 1) (QuantumGate.CNOT 3) 0
    (Or.inr ⟨3, rfl, by decide⟩)

/-- Claim C10: for a syndrome constructed with size `n` (and any
sequence of updates), an out-of-range `set_bit` is a silent no-op
leaving bits and size unchanged, an out-of-range `get_bit` is `none`,
an in-range `get_bit` returns the stored bit (here exercised through a
`set_bit`/`get_bit` round trip), and a fresh syndrome reads `false` at
every in-range index. -/
theorem error_syndrome_behavior (n i j : ℕ) (v w : Bool)
    (us : List (ℕ × Bool)) (hi : n ≤ i) (hj : j < n) :
    (buildSyndrome n us).set_bit i v = buildSyndrome n us ∧
    (buildSyndrome n us).get_bit i = none ∧
    ((buildSyndrome n us).set_bit j w).get_bit j = some w ∧
    (ErrorSyndrome.new n).get_bit j = some false := by
  obtain ⟨hsize, hlen⟩ := buildSyndrome_invariant n us
  have hni : ¬ i < (buildSyndrome n us).size := by omega
  refine ⟨?_, ?_, ?_, ?_⟩
  · unfold ErrorSyndrome.set_bit
    rw [if_neg hni]
  · unfold ErrorSyndrome.get_bit
    rw [if_neg hni]
  · have hjs : j < (buildSyndrome n us).size := by omega
    unfold ErrorSyndrome.set_bit
    rw [if_pos hjs]
    unfold ErrorSyndrome.get_bit
    simp only [hsize]
    rw [if_pos hj]
    have hjl : j < (buildSyndrome n us).bits.length := by omega
    simp [List.getD_eq_getElem?_getD, List.getElem?_set_self', hjl]
  · unfold ErrorSyndrome.new ErrorSyndrome.get_bit
    simp only
    rw [if_pos hj]
    simp [List.getD_eq_getElem?_getD, List.getElem?_replicate, hj]

/-- Witness for claim C10's theorem: a size-2 syndrome with one prior
update, probed out of range at index 5 and in range at index 1. -/
theorem error_syndrome_behavior_witness :
    (buildSyndrome 2 [(0, true)]).set_bit 5 true = buildSyndrome 2 [(0, true)] ∧
    (buildSyndrome 2 [(0, true)]).get_bit 5 = none ∧
    ((buildSyndrome 2 [(0, true)]).set_bit 1 false).get_bit 1 = some false ∧
    (ErrorSyndrome.new 2).get_bit 1 = some false :=
  error_syndrome_behavior 2 5 1 true false [(0, true)] (by decide) (by decide)

/-- Claim C4: the overlap's sign is interpreted the other way around
from the claim.  On the 1-qubit all-zero state probed with the
stabilizer (Z at qubit 0), the clone equals the original and the
overlap is 1, so the real part is non-negative; the claim's
interpretation (non-negative real part means even parity, `false`)
would return `Ok(false)`, but the source's `overlap.re > 0.0` returns
`Ok(true)`.  The second conjunct evaluates the pipeline with the
claim's stated interpretation for contrast. -/
theorem measure_stabilizer_sign_inverted :
    (QuantumState.new 1).measure_stabilizer ⟨[(0, PauliOperator.Z)]⟩ =
      Except.ok true ∧
    (QuantumState.new 1).measure_stabilizer_specParity
      ⟨[(0, PauliOperator.Z)]⟩ = Except.ok false := by
  constructor <;>
  · simp only [QuantumState.measure_stabilizer,
      QuantumState.measure_stabilizer_specParity, applyPaulis, QuantumState.new,
      List.foldl_cons, List.foldl_nil, pauliToGate, QuantumState.apply_gate,
      QuantumState.compute_overlap, pauliZAmps, List.replicate, List.set,
      List.range_succ, List.range_zero, List.map_append, List.map_cons,
      List.map_nil, List.length_cons, List.length_nil, List.zip_cons_cons,
      List.zip_nil_right, Cplx.conj, Cplx.neg, Cplx.add_def, Cplx.mul_def,
      czero, cone]
    norm_num

/-- The decoherence loop over the first `k` qubits is a pure function of
the ambient stream segment it consumes: it applies a Z flip at exactly
the qubits whose draw falls below the rate, never faults, and advances
the ambient position by one per qubit. -/
theorem decoherence_loop_eq (m : NoiseModel) (st : QuantumState) (r : Rng)
    (k : ℕ) (hk : k ≤ st.num_qubits) :
    (List.range k).foldl (decoherenceStep m) ((st, none), r) =
      (({ st with amplitudes :=
          (((List.range k).filter
            (fun i => decide (r.stream (r.pos + i) < m.decoherence_rate))).foldl
            (fun amps i => pauliZAmps i amps) st.amplitudes) }, none),
       ⟨r.stream, r.pos + k⟩) := by
  induction k with
  | zero => simp
  | succ k ih =>
      have hk' : k ≤ st.num_qubits := Nat.le_of_succ_le hk
      have hkn : ¬ st.num_qubits ≤ k := Nat.not_le.mpr hk
      rw [List.range_succ, List.foldl_append, List.foldl_cons, List.foldl_nil,
        ih hk', List.filter_append, List.foldl_append]
      simp only [decoherenceStep, Rng.sample]
      by_cases hu : r.stream (r.pos + k) < m.decoherence_rate
      · rw [if_pos hu]
        simp only [QuantumState.apply_gate, List.filter_cons, List.filter_nil, hu,
          decide_eq_true_eq, if_true, ite_true, List.foldl_cons, List.foldl_nil]
        rw [if_neg hkn]
        rw [Nat.add_assoc]
      · rw [if_neg hu]
        simp only [List.filter_cons, List.filter_nil, hu, decide_eq_false_iff_not,
          if_false, ite_false, List.foldl_nil]
        rw [Nat.add_assoc]
        exact rfl

/-- Claim C9 (amended): `apply_decoherence` draws from the ambient
thread-local generator, not from an injected parameter; its whole
result is the pure function of the input state and the consumed ambient
stream segment made explicit here — a fault-free Z flip at exactly the
qubits whose draw is below `decoherence_rate`, with the ambient
position advanced by `num_qubits`.  Runs on equal input states whose
ambient streams agree therefore produce identical states. -/
theorem apply_decoherence_characterization (m : NoiseModel)
    (st : QuantumState) (amb : Rng) :
    m.apply_decoherence st amb =
      (({ st with amplitudes :=
          (((List.range st.num_qubits).filter
            (fun i => decide (amb.stream (amb.pos + i) < m.decoherence_rate))).foldl
            (fun amps i => pauliZAmps i amps) st.amplitudes) }, none),
       ⟨amb.stream, amb.pos + st.num_qubits⟩) :=
  decoherence_loop_eq m st amb st.num_qubits (Nat.le_refl _)

/-- Claim C9 (counterexample): no generator is injected —
`measure` and every noise sub-process call `rand::thread_rng()`
internally — so the outcome is not a function of the inputs and
injected randomness alone.  With `decoherence_rate = 1/2`, two runs of
`apply_decoherence` on the same input state, differing only in the
ambient thread-local stream — constant draw 1/4 against constant draw
3/4, both inside the half-open interval [0, 1) that `Uniform::new(0.0,
1.0)` samples, as the leading conjuncts record — produce different
resulting states (Z applied to qubit 0 in the first run only),
refuting the claimed ambient-independence at this concrete input. -/
theorem apply_decoherence_ambient_dependent :
    ratHalf = 1 / 2 ∧ ratQuarter = 1 / 4 ∧ ratThreeQuarters = 3 / 4 ∧
    ((0 : ℚ) ≤ ratQuarter ∧ ratQuarter < 1) ∧
    ((0 : ℚ) ≤ ratThreeQuarters ∧ ratThreeQuarters < 1) ∧
    ((⟨ratHalf, 0, 0, 1, []⟩ : NoiseModel).apply_decoherence
        ⟨[cone, cone], 1, [], none⟩ ⟨fun _ => ratQuarter, 0⟩).1 ≠
    ((⟨ratHalf, 0, 0, 1, []⟩ : NoiseModel).apply_decoherence
        ⟨[cone, cone], 1, [], none⟩ ⟨fun _ => ratThreeQuarters, 0⟩).1 := by
  refine ⟨?_, ?_, ?_, by decide, by decide, by decide⟩
  · rw [ratHalf, Rat.mk'_eq_divInt, Rat.divInt_eq_div]
    norm_num
  · rw [ratQuarter, Rat.mk'_eq_divInt, Rat.divInt_eq_div]
    norm_num
  · rw [ratThreeQuarters, Rat.mk'_eq_divInt, Rat.divInt_eq_div]
    norm_num

end QuantumSim
